import Mathlib

/-
Verification of the Per-Connection Tool-Server Orchestration and Execution Core
of the ChatBot backend (Chat-Bot/mcp_client.py, with the in-flight task table
from Chat-Bot/websocket_server.py).

The Python source is shallowly embedded: Python dicts become insertion-ordered
association lists (CPython semantics: updating an existing key keeps its
position, new keys append at the end), `datetime.now()` becomes an explicit
`now : Nat` (seconds) argument, and the asynchronous agent run becomes an
explicit list of callback events followed by an outcome.  External I/O that the
claims do not touch (printing, the MongoDB chat-transcript persistence wrapped
in try/except, token-usage accounting on the result envelope) is elided with a
note at the corresponding place.
-/

set_option maxRecDepth 4000

/- ------------------------------------------------------------------
   Association-list model of Python dicts.
   CPython dicts preserve insertion order; assigning to an existing key
   overwrites in place, deleting removes the entry.
   ------------------------------------------------------------------ -/

def dictGet? {κ α : Type} [DecidableEq κ] : List (κ × α) → κ → Option α
  | [], _ => none
  | (k, v) :: rest, key => if k = key then some v else dictGet? rest key

def dictContains {κ α : Type} [DecidableEq κ] (d : List (κ × α)) (key : κ) : Bool :=
  (dictGet? d key).isSome

def dictSet {κ α : Type} [DecidableEq κ] : List (κ × α) → κ → α → List (κ × α)
  | [], key, v => [(key, v)]
  | (k, w) :: rest, key, v =>
      if k = key then (key, v) :: rest else (k, w) :: dictSet rest key v

def dictErase {κ α : Type} [DecidableEq κ] : List (κ × α) → κ → List (κ × α)
  | [], _ => []
  | (k, w) :: rest, key => if k = key then rest else (k, w) :: dictErase rest key

/-- Python truthiness of an optional string (`None` and `""` are falsy). -/
def pyTruthyStr : Option String → Bool
  | none => false
  | some s => s ≠ ""

/-- Python truthiness of an optional integer (`None` and `0` are falsy). -/
def pyTruthyNat : Option Nat → Bool
  | none => false
  | some n => n ≠ 0

deriving instance DecidableEq for Except

/- ------------------------------------------------------------------
   Conversation model  (mcp_client.py lines 44-46, 213-294).
   ------------------------------------------------------------------ -/

/-- `MAX_CONVERSATION_MESSAGES = 10` (mcp_client.py line 45). -/
def MAX_CONVERSATION_MESSAGES : Nat := 10

/-- `CONVERSATION_CLEANUP_HOURS = 24` (mcp_client.py line 46). -/
def CONVERSATION_CLEANUP_HOURS : Nat := 24

/-- `ConversationMessage` (mcp_client.py lines 213-228); `timestamp` is seconds. -/
structure ConversationMessage where
  role : String
  content : String
  agent_type : Option String
  timestamp : Nat
deriving Repr, DecidableEq

/-- `ConversationSession` (mcp_client.py lines 230-267). -/
structure ConversationSession where
  session_id : String
  messages : List ConversationMessage
  created_at : Nat
  last_activity : Nat
deriving Repr, DecidableEq

/-- `ConversationSession.__init__` (lines 233-237). -/
def ConversationSession.new (sid : String) (now : Nat) : ConversationSession :=
  ⟨sid, [], now, now⟩

/-- Python negative slice `l[-k:]`: the last `k` elements (whole list if shorter). -/
def lastSlice {α : Type} (l : List α) (k : Nat) : List α :=
  l.drop (l.length - k)

/-- `self.messages = self.messages[-MAX_CONVERSATION_MESSAGES:]` applied only when
over capacity (mcp_client.py lines 246-247). -/
def trimMessages (l : List ConversationMessage) : List ConversationMessage :=
  if l.length > MAX_CONVERSATION_MESSAGES then lastSlice l MAX_CONVERSATION_MESSAGES else l

/-- `ConversationSession.add_message` (mcp_client.py lines 239-247): append the
message, refresh `last_activity`, then evict the oldest messages beyond capacity. -/
def ConversationSession.add_message (s : ConversationSession) (role content : String)
    (agentType : Option String) (now : Nat) : ConversationSession :=
  { s with
      messages := trimMessages (s.messages ++ [⟨role, content, agentType, now⟩]),
      last_activity := now }

/-- Python `"\n".join(parts)`. -/
def joinLines : List String → String
  | [] => ""
  | [x] => x
  | x :: y :: rest => x ++ "\n" ++ joinLines (y :: rest)

/-- One line of the rendered transcript (mcp_client.py lines 256-260); note the
Python truthiness test `if msg.agent_type` treats `None` and `""` alike. -/
def formatMessage (msg : ConversationMessage) : String :=
  if msg.role = "user" then "User: " ++ msg.content
  else
    let agentInfo :=
      match msg.agent_type with
      | some a => if a ≠ "" then " (" ++ a ++ " agent)" else ""
      | none => ""
    "Assistant" ++ agentInfo ++ ": " ++ msg.content

/-- `ConversationSession.get_context_string` (mcp_client.py lines 249-263). -/
def ConversationSession.get_context_string (s : ConversationSession) : String :=
  if s.messages = [] then ""
  else
    joinLines (["Previous conversation context:"]
      ++ (lastSlice s.messages MAX_CONVERSATION_MESSAGES).map formatMessage
      ++ ["---"])

/-- `ConversationSession.is_expired` (mcp_client.py lines 265-267): strictly more
than 24 hours of inactivity, with time measured in seconds. -/
def ConversationSession.is_expired (s : ConversationSession) (now : Nat) : Bool :=
  now - s.last_activity > CONVERSATION_CLEANUP_HOURS * 3600

/-- `ConversationManager` (mcp_client.py lines 269-291): a dict of sessions. -/
structure ConversationManager where
  sessions : List (String × ConversationSession)
deriving Repr, DecidableEq

/-- `ConversationManager.get_or_create_session` (mcp_client.py lines 275-279). -/
def ConversationManager.get_or_create_session (m : ConversationManager) (sid : String)
    (now : Nat) : ConversationManager × ConversationSession :=
  match dictGet? m.sessions sid with
  | some s => (m, s)
  | none =>
      let s := ConversationSession.new sid now
      (⟨dictSet m.sessions sid s⟩, s)

/-- `ConversationManager.cleanup_expired_sessions` (mcp_client.py lines 281-291):
collect the ids of expired sessions, then delete each from the dict. -/
def ConversationManager.cleanup_expired_sessions (m : ConversationManager) (now : Nat) :
    ConversationManager :=
  let expired := (m.sessions.filter (fun p => p.2.is_expired now)).map Prod.fst
  ⟨expired.foldl (fun d sid => dictErase d sid) m.sessions⟩

/- ------------------------------------------------------------------
   In-flight execution task table
   (websocket_server.py ConnectionManager, lines 820-872).
   Only the fields the claims touch are modelled.
   ------------------------------------------------------------------ -/

/-- An `asyncio.Task` handle, abstracted to its `done()` observation. -/
structure TaskHandle where
  done : Bool
deriving Repr, DecidableEq

/-- `ConnectionManager.connection_tasks` (websocket_server.py line 826). -/
structure ConnectionManager where
  connection_tasks : List (String × TaskHandle)
deriving Repr, DecidableEq

/-- `ConnectionManager.register_task` (websocket_server.py lines 865-867). -/
def ConnectionManager.register_task (cm : ConnectionManager) (sid : String)
    (task : TaskHandle) : ConnectionManager :=
  ⟨dictSet cm.connection_tasks sid task⟩

/- ------------------------------------------------------------------
   Registry build: the MCP server loop inside `MCPClientManager.initialize`
   (mcp_client.py lines 578-614).  Each config carries `id`, `command`,
   `args`, `env`; only `id` influences the aggregation, and the response of
   the environment to spawning the config is abstracted as `outcome`.
   ------------------------------------------------------------------ -/

/-- What happens when one config is spawned and its tools loaded:
`connectFail` is an exception from `stdio_client` / `ClientSession` /
`session.initialize()` (lines 594-600, `continue`), `loadFail` is an
exception from `load_mcp_tools` (lines 602-611, tools not recorded), and
`loaded tools` is a successful discovery (tool names). -/
inductive ConfigOutcome
  | connectFail
  | loadFail
  | loaded (tools : List String)
deriving Repr, DecidableEq

/-- One entry of `get_mcp_servers()` as consumed by the loop (line 587). -/
structure ServerConfig where
  id : String
  outcome : ConfigOutcome
deriving Repr, DecidableEq

/-- The tool-aggregation state built by the loop: `self.server_tools` and
`self.all_tools` (mcp_client.py lines 607-609). -/
structure ToolState where
  server_tools : List (String × List String)
  all_tools : List String
deriving Repr, DecidableEq

/-- The body of the `for cfg in mcp_servers` loop (mcp_client.py lines 587-611):
a connect/init failure skips the config (`continue`); a load failure records
nothing; a success stores the per-server tool list and extends `all_tools`. -/
def loadServerStep (st : ToolState) (cfg : ServerConfig) : ToolState :=
  match cfg.outcome with
  | .connectFail => st
  | .loadFail => st
  | .loaded tools =>
      { server_tools := dictSet st.server_tools cfg.id tools,
        all_tools := st.all_tools ++ tools }

/-- The whole loop starting from the freshly reset state (lines 391-392). -/
def loadServersLoop (cfgs : List ServerConfig) : ToolState :=
  cfgs.foldl loadServerStep ⟨[], []⟩

/-- The only build-level error the source can raise:
`RuntimeError("No tools loaded from any MCP server.")` (line 614). -/
inductive BuildError
  | noToolsAvailable
deriving Repr, DecidableEq

/-- The aggregation part of `MCPClientManager.initialize` (lines 586-614):
run the loop over every config, then fail iff `all_tools` ended up empty. -/
def initializeToolBuild (cfgs : List ServerConfig) : Except BuildError ToolState :=
  let st := loadServersLoop cfgs
  if st.all_tools = [] then .error .noToolsAvailable else .ok st

/-- The operations discovered by the succeeding configs, in config order. -/
def discoveredOps : List ServerConfig → List String
  | [] => []
  | c :: rest =>
      (match c.outcome with
       | ConfigOutcome.loaded tools => tools
       | _ => []) ++ discoveredOps rest

/- ------------------------------------------------------------------
   Teardown: `MCPClientManager._force_cleanup` (mcp_client.py lines 650-661)
   and `MCPClientManager.cleanup` (lines 663-696).
   ------------------------------------------------------------------ -/

/-- How `self.stack.__aexit__(None, None, None)` would behave if awaited
without bound: finish after `duration` seconds, raise after `duration`
seconds, or never finish. -/
inductive StackCloseBehavior
  | closes (duration : Nat)
  | closesWithError (duration : Nat) (msg : String)
  | hangs
deriving Repr, DecidableEq

/-- What `_force_cleanup` observed and logged (print statements on
lines 657 and 659); never an exception. -/
inductive CleanupLog
  | noStack
  | closedOk
  | timedOut
  | errorLogged (msg : String)
deriving Repr, DecidableEq

/-- `asyncio.wait_for(..., timeout=5.0)` around the stack close
(line 655): the close is abandoned after 5 seconds. -/
def waitForClose : StackCloseBehavior → CleanupLog × Nat
  | .closes d => if d > 5 then (.timedOut, 5) else (.closedOk, d)
  | .closesWithError d m => if d > 5 then (.timedOut, 5) else (.errorLogged m, d)
  | .hangs => (.timedOut, 5)

/-- The resource-owning fields of `MCPClientManager` (lines 364-374);
`sub_agents` and `agent` are abstracted to whether they are set. -/
structure ManagerResources where
  stack : Option StackCloseBehavior
  server_tools : List (String × List String)
  all_tools : List String
  sub_agents : Bool
  agent : Bool
deriving Repr, DecidableEq

/-- `MCPClientManager._force_cleanup` (lines 650-661): if a stack exists,
close it under a 5-second bound; a timeout or an exception is logged and
swallowed; `finally: self.stack = None`.  Returns the new state, the elapsed
seconds and the log entry. -/
def forceCleanup (m : ManagerResources) : ManagerResources × Nat × CleanupLog :=
  match m.stack with
  | none => (m, 0, .noStack)
  | some b => ({ m with stack := none }, (waitForClose b).2, (waitForClose b).1)

/-- `MCPClientManager.cleanup` (lines 663-696).  The task-cancellation block
(lines 666-681) only touches the asyncio runtime, not the manager state, and
is elided.  After `_force_cleanup`, every tool/agent field is reset, and
expired conversation sessions are swept (the sweep is wrapped in try/except
in the source; in this model it cannot fail). -/
def cleanup (m : ManagerResources) (conv : ConversationManager) (now : Nat) :
    ManagerResources × ConversationManager × Nat × CleanupLog :=
  let r := forceCleanup m
  let m2 := { r.1 with
    server_tools := [], all_tools := [], sub_agents := false, agent := false }
  (m2, conv.cleanup_expired_sessions now, r.2.1, r.2.2)

/- ------------------------------------------------------------------
   Tool-activity tracking: `ToolUseLogger` (mcp_client.py lines 48-211)
   together with the MongoDB activity collection it writes through
   (mongodb_manager.py `create_tool_activity` / `update_tool_activity`).
   The MongoDB operations are modelled as always succeeding; their network
   failure modes are external to the claims.
   ------------------------------------------------------------------ -/

/-- One document of the MongoDB tool-activity collection:
`create_tool_activity` inserts it with `status = "running"`
(mongodb_manager.py line 434); `update_tool_activity` overwrites
`status` and the recorded output. -/
structure MongoActivity where
  tool_called : String
  tool_input : String
  status : String
  tool_output : String
deriving Repr, DecidableEq

/-- `ToolUseLogger` (mcp_client.py lines 48-60): the list of tool names seen
and the map from tool name to the MongoDB activity id still pending an
update.  Note the map is keyed by tool NAME, not by activity id. -/
structure ToolUseLogger where
  tools_used : List String
  tool_activities : List (String × Nat)
  agent_id : Option Nat
  workspace_id : Option Nat
deriving Repr, DecidableEq

/-- The mutable state threaded through one agent execution: the logger, the
MongoDB activity collection, and the id the next insert will receive
(ids start at 1, so the `if activity_id:` truthiness test on line 166
always passes). -/
structure ExecState where
  logger : ToolUseLogger
  mongo : List (Nat × MongoActivity)
  nextId : Nat
deriving Repr, DecidableEq

/-- Overwrite status and output of the document with the given id. -/
def mongoUpdate (m : List (Nat × MongoActivity)) (aid : Nat) (output status : String) :
    List (Nat × MongoActivity) :=
  m.map (fun p =>
    if p.1 = aid then (p.1, { p.2 with status := status, tool_output := output }) else p)

/-- `ToolUseLogger._create_tool_activity` (mcp_client.py lines 144-172):
skipped unless both `agent_id` and `workspace_id` are set (Python
truthiness); otherwise inserts a `"running"` document and records its id
under the tool name, OVERWRITING any id previously recorded for that name. -/
def createToolActivity (st : ExecState) (toolName toolArgs : String) : ExecState :=
  if pyTruthyNat st.logger.agent_id && pyTruthyNat st.logger.workspace_id then
    let aid := st.nextId
    { st with
        mongo := st.mongo ++ [(aid, ⟨toolName, toolArgs, "running", ""⟩)],
        nextId := st.nextId + 1,
        logger := { st.logger with
          tool_activities := dictSet st.logger.tool_activities toolName aid } }
  else st

/-- `ToolUseLogger.update_tool_activity` (mcp_client.py lines 174-202):
a no-op when the tool has no tracked activity; otherwise updates the
tracked document and removes the tool from the pending map. -/
def updateToolActivity (st : ExecState) (toolName toolOutput status : String) : ExecState :=
  match dictGet? st.logger.tool_activities toolName with
  | none => st
  | some aid =>
      { st with
          mongo := mongoUpdate st.mongo aid toolOutput status,
          logger := { st.logger with
            tool_activities := dictErase st.logger.tool_activities toolName } }

/-- The callbacks the LangChain runtime delivers to `ToolUseLogger` during one
agent run: `on_llm_end` reporting one function/tool call (lines 94-142),
`on_tool_end` (lines 62-76) and `on_tool_error` (lines 78-92). -/
inductive CallbackEvent
  | llmToolCall (name args : String)
  | toolEnd (name output : String)
  | toolError (name err : String)
deriving Repr, DecidableEq

/-- Effect of one callback on the execution state.  `on_llm_end` appends the
tool name to `tools_used` if new and always creates a fresh activity record;
`on_tool_end` / `on_tool_error` update the tracked activity for that name. -/
def processCallbackEvent (st : ExecState) (ev : CallbackEvent) : ExecState :=
  match ev with
  | .llmToolCall name args =>
      let lg := if name ∈ st.logger.tools_used then st.logger
                else { st.logger with tools_used := st.logger.tools_used ++ [name] }
      createToolActivity { st with logger := lg } name args
  | .toolEnd name output => updateToolActivity st name output "completed"
  | .toolError name err => updateToolActivity st name err "failed"

/-- `MCPClientManager._update_pending_tool_activities` (lines 888-891):
snapshot the pending tool names, then update each with the given status. -/
def updatePendingToolActivities (st : ExecState) (status output : String) : ExecState :=
  (st.logger.tool_activities.map Prod.fst).foldl
    (fun acc name => updateToolActivity acc name output status) st

/- ------------------------------------------------------------------
   One agent execution: `MCPClientManager.execute_agent_with_context`
   (mcp_client.py lines 698-818).
   ------------------------------------------------------------------ -/

/-- The value `agent.ainvoke` returns, as consumed by
`_extract_response_content` (lines 847-858): a dict whose `output` /
`content` / `text` keys may be absent or empty, with `str(result)` as the
final fallback. -/
structure ResultDict where
  outputField : Option String
  contentField : Option String
  textField : Option String
  strRepr : String
deriving Repr, DecidableEq

/-- `_extract_response_content` (lines 847-858): Python
`result.get('output') or result.get('content') or result.get('text') or str(result)` —
the first truthy value wins. -/
def extractResponseContent (r : ResultDict) : String :=
  if pyTruthyStr r.outputField then r.outputField.getD ""
  else if pyTruthyStr r.contentField then r.contentField.getD ""
  else if pyTruthyStr r.textField then r.textField.getD ""
  else r.strRepr

/-- How the bounded agent run ends (lines 746-763): a normal completion
within the 60-second bound, an `asyncio.TimeoutError` from `wait_for`, an
`asyncio.CancelledError`, or any other exception. -/
inductive RunOutcome
  | completes (result : ResultDict)
  | timesOut
  | cancelled
  | raises (msg : String)
deriving Repr, DecidableEq

/-- The black-box behaviour of one `agent.ainvoke` call: the callback events
it delivered to the `ToolUseLogger` before the run ended, and the outcome. -/
structure AgentBehavior where
  events : List CallbackEvent
  outcome : RunOutcome
deriving Repr, DecidableEq

/-- The exceptions `execute_agent_with_context` lets escape: the timeout
branch raises `Exception("Agent execution timed out after 60 seconds")`
(line 754), the cancellation branch re-raises `asyncio.CancelledError`
(line 759), and any other exception is re-raised (line 763). -/
inductive ExecError
  | timeoutError (msg : String)
  | cancelledError
  | executionError (msg : String)
deriving Repr, DecidableEq

/-- The externally observable actions of one execution, in order: the user
message being appended to the conversation store, the agent being invoked
with the (possibly contextualised) query, and the assistant message being
appended. -/
inductive TraceStep
  | userAppended (sid query : String)
  | engineInvoked (query : String)
  | assistantAppended (sid content : String)
deriving Repr, DecidableEq

/-- The state an execution reads and writes: the global
`conversation_manager` and the activity-tracking state. -/
structure World where
  conv : ConversationManager
  exec : ExecState
deriving Repr, DecidableEq

/-- `MCPClientManager.execute_agent_with_context` (mcp_client.py lines
698-818).  The MongoDB chat-transcript writes (lines 712-734 and 794-816)
are external persistence wrapped in try/except and are elided, as is the
token-usage bookkeeping attached to the returned envelope (lines 774-786).
The 60-second `asyncio.wait_for` bound appears as the `timesOut` outcome of
the agent behaviour. -/
def executeAgentWithContext (beh : AgentBehavior) (query : String)
    (sessionId : Option String) (agentId workspaceId : Option Nat) (now : Nat)
    (w : World) : Except ExecError ResultDict × World × List TraceStep :=
  -- self.tool_logger.reset()  (lines 700-701, 208-211)
  let lg0 := { w.exec.logger with tools_used := [], tool_activities := [] }
  -- if agent_id and workspace_id: self.tool_logger.set_context(...)  (lines 704-705)
  let lg1 := if pyTruthyNat agentId && pyTruthyNat workspaceId
             then { lg0 with agent_id := agentId, workspace_id := workspaceId } else lg0
  let ex0 := { w.exec with logger := lg1 }
  let sid := sessionId.getD ""
  -- if session_id:  (lines 707-743)
  let afterSession :=
    if pyTruthyStr sessionId then
      let pr := w.conv.get_or_create_session sid now
      let s1 := pr.2.add_message "user" query none now
      let c2 : ConversationManager := ⟨dictSet pr.1.sessions sid s1⟩
      let ctx := s1.get_context_string
      let cq := if ctx ≠ "" then ctx ++ "\n\nCurrent user message: " ++ query else query
      (c2, cq, [TraceStep.userAppended sid query])
    else (w.conv, query, ([] : List TraceStep))
  let conv1 := afterSession.1
  let contextualQuery := afterSession.2.1
  let trace1 := afterSession.2.2 ++ [TraceStep.engineInvoked contextualQuery]
  -- the bounded agent run delivers its callbacks, then ends (lines 745-763)
  let ex1 := beh.events.foldl processCallbackEvent ex0
  match beh.outcome with
  | .timesOut =>
      let ex2 := updatePendingToolActivities ex1 "failed" "Execution timeout"
      (.error (.timeoutError "Agent execution timed out after 60 seconds"), ⟨conv1, ex2⟩, trace1)
  | .cancelled =>
      let ex2 := updatePendingToolActivities ex1 "failed" "Execution cancelled"
      (.error .cancelledError, ⟨conv1, ex2⟩, trace1)
  | .raises msg =>
      let ex2 := updatePendingToolActivities ex1 "failed" msg
      (.error (.executionError msg), ⟨conv1, ex2⟩, trace1)
  | .completes r =>
      let responseContent := extractResponseContent r
      -- fallback for activities on_tool_end never reached (lines 768-772)
      let ex2 := if ex1.logger.tool_activities ≠ [] then
                   updatePendingToolActivities ex1 "completed" responseContent
                 else ex1
      -- if session_id and response_content:  (lines 788-792)
      if pyTruthyStr sessionId && responseContent ≠ "" then
        let pr2 := conv1.get_or_create_session sid now
        let s3 := pr2.2.add_message "assistant" responseContent (some "user_agent") now
        let c4 : ConversationManager := ⟨dictSet pr2.1.sessions sid s3⟩
        (.ok r, ⟨c4, ex2⟩, trace1 ++ [TraceStep.assistantAppended sid responseContent])
      else
        (.ok r, ⟨conv1, ex2⟩, trace1)

/- ------------------------------------------------------------------
   Single-flight initialization: the synchronization skeleton of
   `MCPClientManager.initialize` (mcp_client.py lines 372-373, 376-394,
   578-614, 640-648) run by two concurrent callers A and B on the same
   manager.  Each caller executes, in order:

     pc 0  acquire `self._initialization_lock`        (line 378; blocks)
     pc 1  `if self._is_initializing: return`         (lines 381-383;
            the early return releases the lock and moves to pc 8)
     pc 2  `self._is_initializing = True`             (line 385)
     pc 3  `await self._force_cleanup()`              (line 388; destroys
            any live subprocess spawn set)
     pc 4  spawn the new subprocess set               (lines 578-614)
     pc 5  `finally: self._is_initializing = False`   (line 644)
     pc 6  release the lock                           (end of `async with`)
     pc 7  done (returned normally)
     pc 8  done (returned via the early-return branch)

   Steps 1-6 can only be taken by the lock holder; acquire is a no-op when
   the lock is held (the caller stays blocked at pc 0).  A schedule is the
   list of callers given the CPU; `false` is caller A, `true` is caller B.
   ------------------------------------------------------------------ -/

/-- Shared state of the two-caller initialization system.  `liveSets` holds
the ids of the currently live subprocess spawn sets (a set is numbered by
the value `spawnCount` takes when it is created); `spawnCount` counts every
spawn set ever created. -/
structure InitSystem where
  lockHolder : Option Bool
  isInitializing : Bool
  liveSets : List Nat
  spawnCount : Nat
  pcA : Nat
  pcB : Nat
deriving Repr, DecidableEq

/-- Program counter of the given caller. -/
def InitSystem.pcOf (s : InitSystem) (i : Bool) : Nat :=
  if i then s.pcB else s.pcA

/-- Replace the program counter of the given caller. -/
def InitSystem.withPc (s : InitSystem) (i : Bool) (pc : Nat) : InitSystem :=
  if i then { s with pcB := pc } else { s with pcA := pc }

/-- One scheduler step: caller `i` executes its next instruction (or stays
blocked on the lock). -/
def initStep (s : InitSystem) (i : Bool) : InitSystem :=
  let pc := s.pcOf i
  if pc = 0 then
    match s.lockHolder with
    | none => { s.withPc i 1 with lockHolder := some i }
    | some _ => s
  else if s.lockHolder ≠ some i then s
  else if pc = 1 then
    if s.isInitializing then { s.withPc i 8 with lockHolder := none }
    else s.withPc i 2
  else if pc = 2 then { s.withPc i 3 with isInitializing := true }
  else if pc = 3 then { s.withPc i 4 with liveSets := [] }
  else if pc = 4 then
    { s.withPc i 5 with liveSets := [s.spawnCount + 1], spawnCount := s.spawnCount + 1 }
  else if pc = 5 then { s.withPc i 6 with isInitializing := false }
  else if pc = 6 then { s.withPc i 7 with lockHolder := none }
  else s

/-- The initial state: lock free, flag clear, no subprocesses, both callers
about to call `initialize`. -/
def initSystemStart : InitSystem := ⟨none, false, [], 0, 0, 0⟩

/-- Run a schedule from the initial state. -/
def runInit (sched : List Bool) : InitSystem :=
  sched.foldl initStep initSystemStart

/-- Is the given program counter inside the lock-protected critical section? -/
def inCriticalSection (pc : Nat) : Bool := 1 ≤ pc && pc ≤ 6

/-- Pairs of program counters the protocol can actually reach: both at most 7
(the early-return pc 8 is never reached) and never both callers inside the
critical section. -/
def validPcPair (pa pb : Nat) : Bool :=
  pa ≤ 7 && pb ≤ 7 && !(inCriticalSection pa && inCriticalSection pb)

/-- The full system state is a function of the two program counters alone:
this determinacy is the formal content of the lock serializing the two
calls.  `spawnCount` counts the callers at or past pc 5; the live set is
empty exactly while the lock holder sits at pc 4 (between its force-cleanup
and its spawn) or while nothing was ever spawned. -/
def stateOfPcs (pa pb : Nat) : InitSystem :=
  let spawned := (if 5 ≤ pa && pa ≤ 7 then 1 else 0) + (if 5 ≤ pb && pb ≤ 7 then 1 else 0)
  { lockHolder := if inCriticalSection pa then some false
                  else if inCriticalSection pb then some true else none
    isInitializing := (3 ≤ pa && pa ≤ 5) || (3 ≤ pb && pb ≤ 5)
    liveSets := if pa = 4 || pb = 4 then [] else if spawned = 0 then [] else [spawned]
    spawnCount := spawned
    pcA := pa
    pcB := pb }

/- ------------------------------------------------------------------
   Concrete inputs used by the counterexample / failing-input theorems.
   ------------------------------------------------------------------ -/

/-- Append a whole list of `(role, content, agent_type, timestamp)` records
to a session, one `add_message` at a time. -/
def appendAll (s : ConversationSession)
    (items : List (String × String × Option String × Nat)) : ConversationSession :=
  items.foldl (fun acc it => acc.add_message it.1 it.2.1 it.2.2.1 it.2.2.2) s

/-- A fresh world: no conversation sessions, no tracked activities, empty
MongoDB activity collection. -/
def freshWorld : World := ⟨⟨[]⟩, ⟨⟨[], [], none, none⟩, [], 1⟩⟩

/-- An agent run in which the policy engine issues two calls to the tool
`"send"` in one LLM response (both activities created by `on_llm_end`
before either finishes) and then the first of them completes, after which
the run returns normally with output `"done"`. -/
def behDuplicateCompleted : AgentBehavior :=
  ⟨[.llmToolCall "send" "msg one", .llmToolCall "send" "msg two", .toolEnd "send" "sent"],
   .completes ⟨some "done", none, none, "dict repr"⟩⟩

/-- An agent run that issues two calls to the tool `"send"` in one LLM
response and then exceeds the 60-second deadline. -/
def behDuplicateTimesOut : AgentBehavior :=
  ⟨[.llmToolCall "send" "msg one", .llmToolCall "send" "msg two"], .timesOut⟩

/-- The schedule in which caller A runs its whole `initialize` to completion
and only then caller B runs: the interleaving the claim's "second call
observes the in-progress state" story is about collapses to this, because
the lock makes B sleep until A has finished. -/
def schedSequentialAB : List Bool :=
  [false, false, false, false, false, false, false, true, true, true, true, true, true, true]

/-- Eleven `(role, content, agent_type, timestamp)` records — one more than
the capacity `MAX_CONVERSATION_MESSAGES = 10`. -/
def elevenMessages : List (String × String × Option String × Nat) :=
  [("user", "m01", none, 1), ("user", "m02", none, 2), ("user", "m03", none, 3),
   ("user", "m04", none, 4), ("user", "m05", none, 5), ("user", "m06", none, 6),
   ("user", "m07", none, 7), ("user", "m08", none, 8), ("user", "m09", none, 9),
   ("user", "m10", none, 10), ("user", "m11", none, 11)]

/-- Build a `ConversationMessage` from one such record. -/
def mkConversationMessage (it : String × String × Option String × Nat) :
    ConversationMessage :=
  ⟨it.1, it.2.1, it.2.2.1, it.2.2.2⟩

/- ==================================================================
   Theorems.
   ================================================================== -/

/-- C1 (counterexample): the claim says two concurrent `initialize` calls
create exactly one subprocess spawn set, the second observing the
in-progress state and returning immediately.  On the code, the whole body
runs under `_initialization_lock` and `_is_initializing` is reset in the
`finally` before the lock is released, so the second caller never sees the
flag: in the interleaving where caller A finishes and then caller B runs
(the only way the lock lets them overlap is B sleeping at acquisition),
BOTH callers execute the full body — two spawn sets are created
(`spawnCount = 2`, not one), and neither caller ends at the early-return
pc 8 (both end at the normal-completion pc 7). -/
theorem initialize_single_flight_refuted :
    (runInit schedSequentialAB).spawnCount = 2 ∧
    (runInit schedSequentialAB).pcA = 7 ∧
    (runInit schedSequentialAB).pcB = 7 ∧
    (runInit schedSequentialAB).liveSets = [2] := by decide

/-- C2 (counterexample): the claim says that whenever at least one config
succeeds, the build succeeds.  A config whose connect/init and tool load
both succeed but whose server exposes zero tools (`.loaded []`) is a
succeeding config, yet the build fails with the no-tools error, because
the source only tests `if not self.all_tools` (line 613). -/
theorem build_succeeding_empty_config_refutes :
    initializeToolBuild [⟨"a", ConfigOutcome.loaded []⟩] =
      Except.error BuildError.noToolsAvailable := by decide

/-- C3 (counterexample): the claim says two sessions discovering an
operation with the same name make the build fail with
`DuplicateOperation("send")`.  The source has no duplicate check at all —
`self.all_tools.extend(tools)` (line 609) — so on the claim's own scenario
`[{id:"a", exposes:["send"]}, {id:"b", exposes:["send"]}]` the build
SUCCEEDS and aggregates the name twice. -/
theorem build_duplicate_name_no_failure :
    initializeToolBuild
        [⟨"a", ConfigOutcome.loaded ["send"]⟩, ⟨"b", ConfigOutcome.loaded ["send"]⟩] =
      Except.ok ⟨[("a", ["send"]), ("b", ["send"])], ["send", "send"]⟩ := by decide

/-- C4 (code bug): on an execution in which one LLM response issues two
calls to the tool `"send"` (so `on_llm_end` creates activity 1 and then
activity 2, OVERWRITING the name-keyed tracker entry) and which then hits
the 60-second deadline, the call does fail with the timeout error and the
still-tracked activity 2 is marked `"failed"`/`"Execution timeout"` — but
activity 1, which is also an activity of this execution still in the
`"running"` state, is never updated: it remains `"running"` after the
execution ends, contradicting the claim that every still-running activity
of the execution is marked failed on timeout. -/
theorem execute_timeout_leaves_superseded_activity_running :
    (executeAgentWithContext behDuplicateTimesOut "q" none (some 1) (some 2) 0 freshWorld).1 =
      Except.error (ExecError.timeoutError "Agent execution timed out after 60 seconds") ∧
    dictGet?
      (executeAgentWithContext behDuplicateTimesOut "q" none (some 1) (some 2) 0
        freshWorld).2.1.exec.mongo 1 = some ⟨"send", "msg one", "running", ""⟩ ∧
    dictGet?
      (executeAgentWithContext behDuplicateTimesOut "q" none (some 1) (some 2) 0
        freshWorld).2.1.exec.mongo 2 =
      some ⟨"send", "msg two", "failed", "Execution timeout"⟩ := by decide

/-- C5 (code bug): on an execution in which one LLM response issues two
calls to the tool `"send"` and the later one completes, the run ends
successfully, yet activity 1 — created during this execution — never
receives a terminal update: `tool_activities` is keyed by tool NAME, so
creating activity 2 overwrote the only reference to activity 1, and both
`on_tool_end` and the end-of-execution fallback
(`_update_pending_tool_activities`) only reach activities still in the
tracker.  Activity 1 remains `"running"` after the execution ends,
contradicting the claim that every activity created during the execution
reaches a terminal state by the time it ends. -/
theorem execute_completion_leaves_superseded_activity_running :
    (executeAgentWithContext behDuplicateCompleted "q" none (some 1) (some 2) 0 freshWorld).1 =
      Except.ok ⟨some "done", none, none, "dict repr"⟩ ∧
    dictGet?
      (executeAgentWithContext behDuplicateCompleted "q" none (some 1) (some 2) 0
        freshWorld).2.1.exec.mongo 1 = some ⟨"send", "msg one", "running", ""⟩ ∧
    dictGet?
      (executeAgentWithContext behDuplicateCompleted "q" none (some 1) (some 2) 0
        freshWorld).2.1.exec.mongo 2 =
      some ⟨"send", "msg two", "completed", "sent"⟩ := by decide

/-- C9 (counterexample): the claim says the sweep never removes a session
with an in-flight execution.  `cleanup_expired_sessions` (lines 281-291)
never consults the in-flight task table (`connection_tasks` lives in
`websocket_server.ConnectionManager` and no code path connects the two):
a session stale for more than 24 hours is removed even while a task for
that very session id is registered as in flight. -/
theorem sweep_removes_inflight_session :
    (ConversationManager.cleanup_expired_sessions ⟨[("s", ⟨"s", [], 0, 0⟩)]⟩ 90000).sessions =
      [] ∧
    dictContains (ConnectionManager.register_task ⟨[]⟩ "s" ⟨false⟩).connection_tasks "s" =
      true := by decide

/-- The aggregate the loop builds is exactly the concatenation of the tool
lists discovered by the succeeding configs, in config order. -/
theorem foldl_loadServerStep_all_tools (cfgs : List ServerConfig) (st : ToolState) :
    (cfgs.foldl loadServerStep st).all_tools = st.all_tools ++ discoveredOps cfgs := by
  induction cfgs generalizing st with
  | nil => simp [discoveredOps]
  | cons c rest ih =>
      cases h : c.outcome <;>
        simp [loadServerStep, h, ih, discoveredOps, List.append_assoc]

/-- A config list in which every config fails discovers no operations. -/
theorem discoveredOps_nil_of_all_fail (cfgs : List ServerConfig)
    (h : ∀ c ∈ cfgs, c.outcome = ConfigOutcome.connectFail ∨
          c.outcome = ConfigOutcome.loadFail) :
    discoveredOps cfgs = [] := by
  induction cfgs with
  | nil => rfl
  | cons c rest ih =>
      have hc := h c (List.mem_cons_self c rest)
      have hrest := ih (fun d hd => h d (List.mem_cons_of_mem c hd))
      rcases hc with hc | hc <;> simp [discoveredOps, hc, hrest]

/-- C2 (amended): (1) a failing config is skipped without affecting the
aggregation over the sibling configs — building over `xs ++ [c] ++ ys`
with `c` failing equals building over `xs ++ ys`; (2) if every config
fails, the build errors with the fatal no-tools error; (3) if at least one
config succeeds in discovering a non-empty tool list (equivalently, the
union of discovered operations is non-empty), the build succeeds and
`all_tools` is exactly the concatenation of the succeeding configs'
discovered operations in config order. -/
theorem build_aggregation_amended :
    (∀ (xs ys : List ServerConfig) (c : ServerConfig),
        (c.outcome = ConfigOutcome.connectFail ∨ c.outcome = ConfigOutcome.loadFail) →
        initializeToolBuild (xs ++ c :: ys) = initializeToolBuild (xs ++ ys)) ∧
    (∀ cfgs : List ServerConfig,
        (∀ c ∈ cfgs, c.outcome = ConfigOutcome.connectFail ∨
          c.outcome = ConfigOutcome.loadFail) →
        initializeToolBuild cfgs = Except.error BuildError.noToolsAvailable) ∧
    (∀ cfgs : List ServerConfig,
        discoveredOps cfgs ≠ [] →
        initializeToolBuild cfgs = Except.ok (loadServersLoop cfgs) ∧
        (loadServersLoop cfgs).all_tools = discoveredOps cfgs) := by
  refine ⟨?_, ?_, ?_⟩
  · intro xs ys c hc
    have hstep : ∀ st : ToolState, loadServerStep st c = st := by
      intro st
      rcases hc with hc | hc <;> simp [loadServerStep, hc]
    unfold initializeToolBuild loadServersLoop
    rw [List.foldl_append, List.foldl_append, List.foldl_cons, hstep]
  · intro cfgs h
    have hops := discoveredOps_nil_of_all_fail cfgs h
    have hall : (loadServersLoop cfgs).all_tools = [] := by
      rw [loadServersLoop, foldl_loadServerStep_all_tools, hops]
      rfl
    unfold initializeToolBuild
    simp [hall]
  · intro cfgs h
    have hall : (loadServersLoop cfgs).all_tools = discoveredOps cfgs := by
      rw [loadServersLoop, foldl_loadServerStep_all_tools]
      rfl
    refine ⟨?_, hall⟩
    unfold initializeToolBuild
    simp [hall, h]

/-- C2 witness: the three parts of `build_aggregation_amended` instantiated
at the spec's partial-failure scenario. -/
theorem build_aggregation_amended_witness :
    initializeToolBuild
        [⟨"a", ConfigOutcome.connectFail⟩, ⟨"b", ConfigOutcome.loaded ["ping"]⟩] =
      initializeToolBuild [⟨"b", ConfigOutcome.loaded ["ping"]⟩] ∧
    initializeToolBuild [⟨"a", ConfigOutcome.connectFail⟩] =
      Except.error BuildError.noToolsAvailable ∧
    (initializeToolBuild [⟨"b", ConfigOutcome.loaded ["ping"]⟩] =
        Except.ok (loadServersLoop [⟨"b", ConfigOutcome.loaded ["ping"]⟩]) ∧
      (loadServersLoop [⟨"b", ConfigOutcome.loaded ["ping"]⟩]).all_tools =
        discoveredOps [⟨"b", ConfigOutcome.loaded ["ping"]⟩]) :=
  ⟨build_aggregation_amended.1 [] [⟨"b", ConfigOutcome.loaded ["ping"]⟩]
      ⟨"a", ConfigOutcome.connectFail⟩ (Or.inl rfl),
   build_aggregation_amended.2.1 [⟨"a", ConfigOutcome.connectFail⟩] (by decide),
   build_aggregation_amended.2.2 [⟨"b", ConfigOutcome.loaded ["ping"]⟩] (by decide)⟩

/-- C3 (amended): when the discovered operations contain a name at least
twice (two sessions exposing the same operation name), the build does not
fail — it succeeds, and the aggregated `all_tools` still contains that
name at least twice: duplicates are aggregated, not rejected. -/
theorem build_duplicate_aggregated_amended :
    ∀ (cfgs : List ServerConfig) (name : String),
      2 ≤ (discoveredOps cfgs).count name →
      initializeToolBuild cfgs = Except.ok (loadServersLoop cfgs) ∧
      2 ≤ (loadServersLoop cfgs).all_tools.count name := by
  intro cfgs name hcount
  have hall : (loadServersLoop cfgs).all_tools = discoveredOps cfgs := by
    rw [loadServersLoop, foldl_loadServerStep_all_tools]
    rfl
  have hne : discoveredOps cfgs ≠ [] := by
    intro hnil
    rw [hnil] at hcount
    simp at hcount
  refine ⟨?_, by rw [hall]; exact hcount⟩
  unfold initializeToolBuild
  simp [hall, hne]

/-- C3 witness: `build_duplicate_aggregated_amended` at the spec's
duplicate-name scenario. -/
theorem build_duplicate_aggregated_amended_witness :
    initializeToolBuild
        [⟨"a", ConfigOutcome.loaded ["send"]⟩, ⟨"b", ConfigOutcome.loaded ["send"]⟩] =
      Except.ok
        (loadServersLoop
          [⟨"a", ConfigOutcome.loaded ["send"]⟩, ⟨"b", ConfigOutcome.loaded ["send"]⟩]) ∧
    2 ≤ (loadServersLoop
          [⟨"a", ConfigOutcome.loaded ["send"]⟩,
            ⟨"b", ConfigOutcome.loaded ["send"]⟩]).all_tools.count "send" :=
  build_duplicate_aggregated_amended
    [⟨"a", ConfigOutcome.loaded ["send"]⟩, ⟨"b", ConfigOutcome.loaded ["send"]⟩]
    "send" (by decide)

/-- Taking the last `k` elements is reversing, taking `k`, reversing back. -/
theorem lastSlice_eq_reverse_take {α : Type} (l : List α) (k : Nat) :
    lastSlice l k = (l.reverse.take k).reverse := by
  rw [List.take_reverse, List.reverse_reverse, lastSlice]

/-- Prepending to a list and then taking `k` ignores anything of the second
list beyond its own first `k` elements. -/
theorem take_append_take {α : Type} (u v : List α) (k : Nat) :
    (u ++ v.take k).take k = (u ++ v).take k := by
  rcases Nat.le_total k u.length with h | h
  · rw [List.take_append_of_le_length h, List.take_append_of_le_length h]
  · obtain ⟨i, rfl⟩ : ∃ i, k = u.length + i := ⟨k - u.length, by omega⟩
    rw [List.take_append, List.take_append, List.take_take]
    have hmin : i ⊓ (u.length + i) = i := by
      simp [Nat.min_def]
    rw [hmin]

/-- Keeping only the last `k` elements before appending more does not change
the last `k` elements of the whole. -/
theorem lastSlice_append_lastSlice {α : Type} (A B : List α) (k : Nat) :
    lastSlice (lastSlice A k ++ B) k = lastSlice (A ++ B) k := by
  simp only [lastSlice_eq_reverse_take, List.reverse_append, List.reverse_reverse]
  rw [take_append_take]

/-- The capacity trim is exactly "keep the last 10": when the list is not
over capacity, dropping `length - 10 = 0` elements is the identity. -/
theorem trimMessages_eq_lastSlice (l : List ConversationMessage) :
    trimMessages l = lastSlice l MAX_CONVERSATION_MESSAGES := by
  unfold trimMessages
  split
  · rfl
  · next h =>
      have h0 : l.length - MAX_CONVERSATION_MESSAGES = 0 := by omega
      rw [lastSlice, h0, List.drop_zero]

/-- The last `k` elements are never more than `k` elements. -/
theorem lastSlice_length_le {α : Type} (l : List α) (k : Nat) :
    (lastSlice l k).length ≤ k := by
  rw [lastSlice, List.length_drop]
  omega

/-- `add_message` in terms of `lastSlice`. -/
theorem add_message_messages (s : ConversationSession) (role content : String)
    (a : Option String) (now : Nat) :
    (s.add_message role content a now).messages =
      lastSlice (s.messages ++ [⟨role, content, a, now⟩]) MAX_CONVERSATION_MESSAGES := by
  rw [ConversationSession.add_message, trimMessages_eq_lastSlice]

/-- Folding `add_message` over a record list keeps exactly the last 10 of
the concatenation, provided the starting session is within capacity. -/
theorem appendAll_messages (items : List (String × String × Option String × Nat)) :
    ∀ s : ConversationSession, s.messages.length ≤ MAX_CONVERSATION_MESSAGES →
      (appendAll s items).messages =
        lastSlice (s.messages ++ items.map mkConversationMessage)
          MAX_CONVERSATION_MESSAGES := by
  induction items with
  | nil =>
      intro s hs
      have h0 : (s.messages ++ ([] : List (String × String × Option String × Nat)).map
          mkConversationMessage).length - MAX_CONVERSATION_MESSAGES = 0 := by
        simp
        omega
      rw [appendAll, List.foldl_nil, lastSlice, h0, List.drop_zero]
      simp
  | cons it rest ih =>
      intro s hs
      have hstep : appendAll s (it :: rest) =
          appendAll (s.add_message it.1 it.2.1 it.2.2.1 it.2.2.2) rest := rfl
      rw [hstep, ih _ (by rw [add_message_messages]; exact lastSlice_length_le _ _),
        add_message_messages, lastSlice_append_lastSlice]
      simp [mkConversationMessage, List.append_assoc]

/-- C6 (confirmed): (1) every append refreshes `last_activity` and the
message list never exceeds the capacity `K = 10` — even starting from an
arbitrary session state; (2) appending `N > 10` records to a fresh session
leaves exactly 10 messages, namely the most recently appended 10 in their
original order (the last-10 slice of the appended records). -/
theorem conversation_bounded_history :
    (∀ (s : ConversationSession) (role content : String) (a : Option String) (now : Nat),
        (s.add_message role content a now).last_activity = now ∧
        (s.add_message role content a now).messages.length ≤ MAX_CONVERSATION_MESSAGES) ∧
    (∀ (sid : String) (t0 : Nat) (items : List (String × String × Option String × Nat)),
        MAX_CONVERSATION_MESSAGES < items.length →
        (appendAll (ConversationSession.new sid t0) items).messages =
          lastSlice (items.map mkConversationMessage) MAX_CONVERSATION_MESSAGES ∧
        (appendAll (ConversationSession.new sid t0) items).messages.length =
          MAX_CONVERSATION_MESSAGES) := by
  constructor
  · intro s role content a now
    refine ⟨rfl, ?_⟩
    rw [add_message_messages]
    exact lastSlice_length_le _ _
  · intro sid t0 items hlen
    have hmsgs : (appendAll (ConversationSession.new sid t0) items).messages =
        lastSlice (items.map mkConversationMessage) MAX_CONVERSATION_MESSAGES := by
      have := appendAll_messages items (ConversationSession.new sid t0)
        (by simp [ConversationSession.new])
      simpa [ConversationSession.new] using this
    refine ⟨hmsgs, ?_⟩
    rw [hmsgs, lastSlice, List.length_drop, List.length_map]
    omega

/-- C6 witness: `conversation_bounded_history` at a concrete session/append
and at the 11-record list `elevenMessages`. -/
theorem conversation_bounded_history_witness :
    ((ConversationSession.new "w" 0).add_message "user" "hi" none 7).last_activity = 7 ∧
    ((ConversationSession.new "w" 0).add_message "user" "hi" none
        7).messages.length ≤ MAX_CONVERSATION_MESSAGES ∧
    (appendAll (ConversationSession.new "w" 0) elevenMessages).messages =
      lastSlice (elevenMessages.map mkConversationMessage) MAX_CONVERSATION_MESSAGES ∧
    (appendAll (ConversationSession.new "w" 0) elevenMessages).messages.length =
      MAX_CONVERSATION_MESSAGES :=
  ⟨(conversation_bounded_history.1 (ConversationSession.new "w" 0) "user" "hi" none 7).1,
   (conversation_bounded_history.1 (ConversationSession.new "w" 0) "user" "hi" none 7).2,
   (conversation_bounded_history.2 "w" 0 elevenMessages (by decide)).1,
   (conversation_bounded_history.2 "w" 0 elevenMessages (by decide)).2⟩

/-- Erasing keys that differ from the head leaves the head in place. -/
theorem foldl_dictErase_cons {κ α : Type} [DecidableEq κ] (k : κ) (v : α) :
    ∀ (ids : List κ) (rest : List (κ × α)), k ∉ ids →
      ids.foldl (fun d sid => dictErase d sid) ((k, v) :: rest) =
        (k, v) :: ids.foldl (fun d sid => dictErase d sid) rest
  | [], _, _ => rfl
  | i :: ids, rest, h => by
      have hk : ¬ k = i := by
        intro he
        exact h (by simp [he])
      rw [List.foldl_cons, List.foldl_cons]
      have he : dictErase ((k, v) :: rest) i = (k, v) :: dictErase rest i := by
        simp [dictErase, hk]
      rw [he]
      exact foldl_dictErase_cons k v ids (dictErase rest i)
        (fun hm => h (List.mem_cons_of_mem i hm))

/-- On a dict with no duplicate keys, deleting every expired id retains
exactly the non-expired entries, in order. -/
theorem cleanup_expired_eq_filter :
    ∀ (sessions : List (String × ConversationSession)) (now : Nat),
      (sessions.map Prod.fst).Nodup →
      (ConversationManager.cleanup_expired_sessions ⟨sessions⟩ now).sessions =
        sessions.filter (fun p => !(p.2.is_expired now))
  | [], _, _ => rfl
  | (k, v) :: rest, now, h => by
      have h2 : (k :: rest.map Prod.fst).Nodup := by simpa using h
      have hk : k ∉ rest.map Prod.fst := (List.nodup_cons.mp h2).1
      have hnd : (rest.map Prod.fst).Nodup := (List.nodup_cons.mp h2).2
      have hsub : ∀ x ∈ (rest.filter (fun p => p.2.is_expired now)).map Prod.fst,
          x ∈ rest.map Prod.fst := by
        intro x hx
        obtain ⟨p, hp, hpx⟩ := List.mem_map.mp hx
        exact List.mem_map.mpr ⟨p, List.mem_of_mem_filter hp, hpx⟩
      have ih := cleanup_expired_eq_filter rest now hnd
      simp only [ConversationManager.cleanup_expired_sessions] at ih ⊢
      by_cases hexp : v.is_expired now
      · rw [List.filter_cons_of_pos (by simpa using hexp), List.map_cons,
          List.foldl_cons]
        have he0 : dictErase ((k, v) :: rest) k = rest := by simp [dictErase]
        rw [he0, List.filter_cons_of_neg (by simpa using hexp)]
        exact ih
      · rw [List.filter_cons_of_neg (by simpa using hexp),
          List.filter_cons_of_pos (by simpa using hexp)]
        rw [foldl_dictErase_cons k v _ _ (fun hm => hk (hsub _ hm))]
        rw [ih]

/-- C9 (amended): `cleanup_expired_sessions` removes exactly the sessions
whose `last_activity` is more than the 24-hour TTL in the past — the
retained dict is precisely the non-expired entries in their original
order.  The removal depends on nothing but expiry: in particular the
in-flight task table of `websocket_server.ConnectionManager` is not
consulted (the function does not even receive it), so an expired session
with an in-flight execution IS removed — see the counterexample. -/
theorem sweep_removes_exactly_expired_amended (m : ConversationManager) (now : Nat)
    (h : (m.sessions.map Prod.fst).Nodup) :
    (m.cleanup_expired_sessions now).sessions =
      m.sessions.filter (fun p => !(p.2.is_expired now)) :=
  cleanup_expired_eq_filter m.sessions now h

/-- C9 witness: the amended sweep theorem at a concrete two-session store in
which only the stale session is removed. -/
theorem sweep_removes_exactly_expired_amended_witness :
    (ConversationManager.cleanup_expired_sessions
        ⟨[("old", ⟨"old", [], 0, 0⟩), ("fresh", ⟨"fresh", [], 80000, 80000⟩)]⟩
        90000).sessions =
      [("old", ⟨"old", [], 0, 0⟩), ("fresh", ⟨"fresh", [], 80000, 80000⟩)].filter
        (fun p => !(p.2.is_expired 90000)) :=
  sweep_removes_exactly_expired_amended
    ⟨[("old", ⟨"old", [], 0, 0⟩), ("fresh", ⟨"fresh", [], 80000, 80000⟩)]⟩ 90000
    (by decide)

/-- Conversation managers are equal when their session dicts are. -/
theorem ConversationManager.eq_of_sessions_eq {a b : ConversationManager}
    (h : a.sessions = b.sessions) : a = b := by
  cases a
  cases b
  cases h
  rfl

/-- The bounded wait around the stack close never takes more than 5 seconds. -/
theorem waitForClose_elapsed_le (b : StackCloseBehavior) : (waitForClose b).2 ≤ 5 := by
  cases b <;> simp [waitForClose] <;> split <;> omega

/-- Whatever the stack close does, `cleanup` leaves the manager fully empty:
no stack, no tools, no agents. -/
theorem cleanup_resets_manager (m : ManagerResources) (conv : ConversationManager)
    (now : Nat) :
    (cleanup m conv now).1 =
      ⟨none, [], [], false, false⟩ := by
  rcases m with ⟨st, f1, f2, f3, f4⟩
  cases st <;> rfl

/-- C7 (confirmed): teardown is bounded, failure-swallowing and idempotent.
(1) `cleanup` finishes within the 5-second `wait_for` bound no matter how
the stack close behaves (including hanging forever); (2) afterwards the
manager is reset to the empty state; (3) an exception raised by the stack
close within the bound is only logged (`errorLogged`) — the call still
returns normally with the state reset, never re-raising; (4) running
`cleanup` again on the already-empty result changes nothing and consumes
no time (idempotence).  The no-duplicate-keys hypothesis reflects that the
session dict is a Python dict. -/
theorem cleanup_bounded_swallowed_idempotent (m : ManagerResources)
    (conv : ConversationManager) (now : Nat)
    (h : (conv.sessions.map Prod.fst).Nodup) :
    (cleanup m conv now).2.2.1 ≤ 5 ∧
    (cleanup m conv now).1 = ⟨none, [], [], false, false⟩ ∧
    (∀ (d : Nat) (msg : String),
        m.stack = some (StackCloseBehavior.closesWithError d msg) → d ≤ 5 →
        (cleanup m conv now).2.2.2 = CleanupLog.errorLogged msg) ∧
    cleanup (cleanup m conv now).1 (cleanup m conv now).2.1 now =
      ((cleanup m conv now).1, (cleanup m conv now).2.1, 0, CleanupLog.noStack) := by
  have hfst := cleanup_resets_manager m conv now
  have hsnd : (cleanup m conv now).2.1 = conv.cleanup_expired_sessions now := rfl
  refine ⟨?_, hfst, ?_, ?_⟩
  · show (forceCleanup m).2.1 ≤ 5
    unfold forceCleanup
    rcases hst : m.stack with _ | b
    · simp
    · simpa using waitForClose_elapsed_le b
  · intro d msg hst hd
    show (forceCleanup m).2.2 = CleanupLog.errorLogged msg
    unfold forceCleanup
    rw [hst]
    simp [waitForClose, Nat.not_lt.mpr hd]
  · have hc2 : (conv.cleanup_expired_sessions now).sessions =
        conv.sessions.filter (fun p => !(p.2.is_expired now)) :=
      cleanup_expired_eq_filter conv.sessions now h
    have hnd2 : ((conv.cleanup_expired_sessions now).sessions.map Prod.fst).Nodup := by
      rw [hc2]
      exact List.Nodup.sublist
        (List.Sublist.map Prod.fst (List.filter_sublist conv.sessions)) h
    have hswp : (conv.cleanup_expired_sessions now).cleanup_expired_sessions now =
        conv.cleanup_expired_sessions now := by
      apply ConversationManager.eq_of_sessions_eq
      rw [cleanup_expired_eq_filter _ now hnd2, hc2, List.filter_filter]
      simp
    rw [hfst, hsnd]
    have hred : cleanup ⟨none, [], [], false, false⟩
          (conv.cleanup_expired_sessions now) now =
        (⟨none, [], [], false, false⟩,
          (conv.cleanup_expired_sessions now).cleanup_expired_sessions now, 0,
          CleanupLog.noStack) := rfl
    rw [hred, hswp]

/-- C7 witness: `cleanup_bounded_swallowed_idempotent` on a manager whose
stack close raises after 3 seconds and a concrete two-session store. -/
theorem cleanup_bounded_swallowed_idempotent_witness :
    (cleanup ⟨some (StackCloseBehavior.closesWithError 3 "boom"), [("a", ["t"])], ["t"],
        true, true⟩ ⟨[("old", ⟨"old", [], 0, 0⟩)]⟩ 90000).2.2.1 ≤ 5 ∧
    (cleanup ⟨some (StackCloseBehavior.closesWithError 3 "boom"), [("a", ["t"])], ["t"],
        true, true⟩ ⟨[("old", ⟨"old", [], 0, 0⟩)]⟩ 90000).1 =
      ⟨none, [], [], false, false⟩ ∧
    (cleanup ⟨some (StackCloseBehavior.closesWithError 3 "boom"), [("a", ["t"])], ["t"],
        true, true⟩ ⟨[("old", ⟨"old", [], 0, 0⟩)]⟩ 90000).2.2.2 =
      CleanupLog.errorLogged "boom" ∧
    cleanup
        (cleanup ⟨some (StackCloseBehavior.closesWithError 3 "boom"), [("a", ["t"])],
          ["t"], true, true⟩ ⟨[("old", ⟨"old", [], 0, 0⟩)]⟩ 90000).1
        (cleanup ⟨some (StackCloseBehavior.closesWithError 3 "boom"), [("a", ["t"])],
          ["t"], true, true⟩ ⟨[("old", ⟨"old", [], 0, 0⟩)]⟩ 90000).2.1 90000 =
      ((cleanup ⟨some (StackCloseBehavior.closesWithError 3 "boom"), [("a", ["t"])],
          ["t"], true, true⟩ ⟨[("old", ⟨"old", [], 0, 0⟩)]⟩ 90000).1,
        (cleanup ⟨some (StackCloseBehavior.closesWithError 3 "boom"), [("a", ["t"])],
          ["t"], true, true⟩ ⟨[("old", ⟨"old", [], 0, 0⟩)]⟩ 90000).2.1, 0,
        CleanupLog.noStack) :=
  ⟨(cleanup_bounded_swallowed_idempotent _ _ 90000 (by decide)).1,
   (cleanup_bounded_swallowed_idempotent _ _ 90000 (by decide)).2.1,
   (cleanup_bounded_swallowed_idempotent _ _ 90000 (by decide)).2.2.1 3 "boom" rfl
     (by decide),
   (cleanup_bounded_swallowed_idempotent _ _ 90000 (by decide)).2.2.2⟩

/-- Looking up a key just written returns the written value. -/
theorem dictGet?_dictSet_self {κ α : Type} [DecidableEq κ] :
    ∀ (d : List (κ × α)) (k : κ) (v : α), dictGet? (dictSet d k v) k = some v
  | [], k, v => by simp [dictGet?, dictSet]
  | (k1, v1) :: rest, k, v => by
      by_cases h : k1 = k
      · simp [dictGet?, dictSet, h]
      · simp [dictGet?, dictSet, h]
        exact dictGet?_dictSet_self rest k v

/-- The last element of a list survives taking the last `k ≥ 1` elements. -/
theorem getLast?_mem_lastSlice {α : Type} (l : List α) (x : α) (k : Nat)
    (hk : 1 ≤ k) (hx : l.getLast? = some x) : x ∈ lastSlice l k := by
  rw [lastSlice_eq_reverse_take]
  have hhead : l.reverse.head? = some x := by rw [List.head?_reverse]; exact hx
  obtain ⟨m, rfl⟩ : ∃ m, k = m + 1 := ⟨k - 1, by omega⟩
  cases hrev : l.reverse with
  | nil => rw [hrev] at hhead; cases hhead
  | cons y t =>
      rw [hrev] at hhead
      have hxy : y = x := by cases hhead; rfl
      rw [List.take_succ_cons, hxy]
      simp

/-- The last element of `l` survives appending one element and then taking
the last `k ≥ 2` elements. -/
theorem getLast?_mem_lastSlice_append {α : Type} (l : List α) (x a : α) (k : Nat)
    (hk : 2 ≤ k) (hx : l.getLast? = some x) : x ∈ lastSlice (l ++ [a]) k := by
  rw [lastSlice_eq_reverse_take, List.reverse_append]
  have hhead : l.reverse.head? = some x := by rw [List.head?_reverse]; exact hx
  obtain ⟨m, rfl⟩ : ∃ m, k = m + 1 + 1 := ⟨k - 2, by omega⟩
  cases hrev : l.reverse with
  | nil => rw [hrev] at hhead; cases hhead
  | cons y t =>
      rw [hrev] at hhead
      have hxy : y = x := by cases hhead; rfl
      simp only [List.reverse_cons, List.reverse_nil, List.nil_append, List.cons_append,
        List.take_succ_cons, hxy]
      simp

/-- The message just appended is the last message of the session. -/
theorem add_message_getLast? (s : ConversationSession) (role content : String)
    (a : Option String) (now : Nat) :
    (s.add_message role content a now).messages.getLast? =
      some ⟨role, content, a, now⟩ := by
  rw [add_message_messages, lastSlice_eq_reverse_take, List.getLast?_reverse,
    List.reverse_append]
  simp only [List.reverse_cons, List.reverse_nil, List.nil_append, List.cons_append]
  rw [show MAX_CONVERSATION_MESSAGES = 9 + 1 from rfl, List.take_succ_cons]
  rfl

/-- A session is never empty right after an append. -/
theorem add_message_messages_ne_nil (s : ConversationSession) (role content : String)
    (a : Option String) (now : Nat) :
    (s.add_message role content a now).messages ≠ [] := by
  intro h
  have := add_message_getLast? s role content a now
  rw [h] at this
  cases this

/-- The joined string is at least as long as its first part. -/
theorem joinLines_head_length (x : String) (l : List String) :
    x.length ≤ (joinLines (x :: l)).length := by
  cases l with
  | nil => exact Nat.le_refl _
  | cons y t =>
      rw [joinLines, String.length_append, String.length_append]
      omega

/-- A non-empty session renders a non-empty context string. -/
theorem get_context_string_ne_empty (s : ConversationSession)
    (h : s.messages ≠ []) : s.get_context_string ≠ "" := by
  rw [ConversationSession.get_context_string, if_neg h]
  simp only [List.cons_append, List.nil_append]
  intro h0
  have hle := joinLines_head_length "Previous conversation context:"
    ((lastSlice s.messages MAX_CONVERSATION_MESSAGES).map formatMessage ++ ["---"])
  rw [h0] at hle
  have h30 : ("Previous conversation context:" : String).length = 30 := by decide
  have h0len : ("" : String).length = 0 := by decide
  omega

/-- Taking the last `k` elements twice is the same as once. -/
theorem lastSlice_idem {α : Type} (l : List α) (k : Nat) :
    lastSlice (lastSlice l k) k = lastSlice l k := by
  have h := lastSlice_append_lastSlice l [] k
  simpa using h

/-- Taking the last `k ≥ 1` elements of a non-empty list is non-empty. -/
theorem lastSlice_ne_nil {α : Type} (l : List α) (k : Nat) (hl : l ≠ [])
    (hk : 1 ≤ k) : lastSlice l k ≠ [] := by
  have hpos : 0 < l.length := List.length_pos.mpr hl
  have hlen : (lastSlice l k).length = l.length - (l.length - k) := by
    rw [lastSlice, List.length_drop]
  intro h
  rw [h] at hlen
  simp at hlen
  omega

/-- A list contains the element its `getLast?` returns. -/
theorem mem_of_getLast?_some {α : Type} {l : List α} {x : α}
    (h : l.getLast? = some x) : x ∈ l := by
  have hh : l.reverse.head? = some x := by rw [List.head?_reverse]; exact h
  rw [← List.mem_reverse]
  cases hrev : l.reverse with
  | nil => rw [hrev] at hh; cases hh
  | cons y t =>
      rw [hrev] at hh
      have hxy : y = x := by cases hh; rfl
      rw [hxy]
      exact List.mem_cons_self x t

/-- `get_or_create_session` on a key already in the dict returns the stored
session and leaves the store unchanged. -/
theorem get_or_create_session_present (m : ConversationManager) (sid : String)
    (now : Nat) (s : ConversationSession) (h : dictGet? m.sessions sid = some s) :
    m.get_or_create_session sid now = (m, s) := by
  unfold ConversationManager.get_or_create_session
  rw [h]

/-- C10 (confirmed): for every execution with a truthy session id, (1) the
trace begins with the user message being appended and only then the agent
being invoked; (2) whatever the outcome — success, timeout, cancellation
or another exception — the conversation store afterwards holds the session
and the session still contains the user message (no rollback on error);
(3) an assistant message is appended if and only if the run completed and
the extracted response content is non-empty. -/
theorem execute_appends_user_before_engine
    (beh : AgentBehavior) (query sid : String) (agentId workspaceId : Option Nat)
    (now : Nat) (w : World) (hsid : sid ≠ "") :
    (∃ cq rest,
      (executeAgentWithContext beh query (some sid) agentId workspaceId now w).2.2 =
        TraceStep.userAppended sid query :: TraceStep.engineInvoked cq :: rest) ∧
    (∃ s, dictGet?
        (executeAgentWithContext beh query (some sid) agentId workspaceId now
          w).2.1.conv.sessions sid = some s ∧
      ConversationMessage.mk "user" query none now ∈ s.messages) ∧
    ((∃ c, TraceStep.assistantAppended sid c ∈
        (executeAgentWithContext beh query (some sid) agentId workspaceId now w).2.2) ↔
      (∃ r, beh.outcome = RunOutcome.completes r ∧ extractResponseContent r ≠ "")) := by
  obtain ⟨events, outcome⟩ := beh
  have hps : pyTruthyStr (some sid) = true := by simp [pyTruthyStr, hsid]
  have husr := add_message_getLast? (w.conv.get_or_create_session sid now).2
    "user" query none now
  have hctx := get_context_string_ne_empty _
    (add_message_messages_ne_nil (w.conv.get_or_create_session sid now).2
      "user" query none now)
  cases outcome with
  | timesOut =>
      simp only [executeAgentWithContext, hps, if_true, Option.getD]
      refine ⟨⟨_, [], rfl⟩,
        ⟨_, dictGet?_dictSet_self _ _ _, mem_of_getLast?_some husr⟩, ?_⟩
      simp
  | cancelled =>
      simp only [executeAgentWithContext, hps, if_true, Option.getD]
      refine ⟨⟨_, [], rfl⟩,
        ⟨_, dictGet?_dictSet_self _ _ _, mem_of_getLast?_some husr⟩, ?_⟩
      simp
  | raises msg =>
      simp only [executeAgentWithContext, hps, if_true, Option.getD]
      refine ⟨⟨_, [], rfl⟩,
        ⟨_, dictGet?_dictSet_self _ _ _, mem_of_getLast?_some husr⟩, ?_⟩
      simp
  | completes r =>
      have hpr2 := get_or_create_session_present
        (ConversationManager.mk (dictSet (w.conv.get_or_create_session sid now).1.sessions
          sid ((w.conv.get_or_create_session sid now).2.add_message "user" query none now)))
        sid now
        ((w.conv.get_or_create_session sid now).2.add_message "user" query none now)
        (dictGet?_dictSet_self _ _ _)
      by_cases hrc : extractResponseContent r = ""
      · simp only [executeAgentWithContext, hps, if_true, Option.getD]
        rw [if_neg (by simp [hrc] :
          ¬ ((true && decide (extractResponseContent r ≠ "")) = true))]
        refine ⟨⟨_, [], rfl⟩,
          ⟨_, dictGet?_dictSet_self _ _ _, mem_of_getLast?_some husr⟩, ?_⟩
        simp [hrc]
      · simp only [executeAgentWithContext, hps, if_true, Option.getD]
        rw [if_pos (by simp [hrc] :
          (true && decide (extractResponseContent r ≠ "")) = true)]
        rw [hpr2]
        refine ⟨⟨_, [TraceStep.assistantAppended sid (extractResponseContent r)], rfl⟩,
          ⟨_, dictGet?_dictSet_self _ _ _, ?_⟩, ?_⟩
        · rw [add_message_messages]
          exact getLast?_mem_lastSlice_append _ _ _ _ (by decide) husr
        · simp [hrc]

/-- C10 witness: `execute_appends_user_before_engine` at a concrete
successful run against the fresh world. -/
theorem execute_appends_user_before_engine_witness :
    (∃ cq rest,
      (executeAgentWithContext ⟨[], RunOutcome.completes ⟨some "hi", none, none, "r"⟩⟩
          "hello" (some "sess") none none 5 freshWorld).2.2 =
        TraceStep.userAppended "sess" "hello" :: TraceStep.engineInvoked cq :: rest) ∧
    (∃ s, dictGet?
        (executeAgentWithContext ⟨[], RunOutcome.completes ⟨some "hi", none, none, "r"⟩⟩
          "hello" (some "sess") none none 5 freshWorld).2.1.conv.sessions "sess" =
        some s ∧
      ConversationMessage.mk "user" "hello" none 5 ∈ s.messages) ∧
    ((∃ c, TraceStep.assistantAppended "sess" c ∈
        (executeAgentWithContext ⟨[], RunOutcome.completes ⟨some "hi", none, none, "r"⟩⟩
          "hello" (some "sess") none none 5 freshWorld).2.2) ↔
      (∃ r, (AgentBehavior.mk [] (RunOutcome.completes ⟨some "hi", none, none,
          "r"⟩)).outcome = RunOutcome.completes r ∧ extractResponseContent r ≠ "")) :=
  execute_appends_user_before_engine
    ⟨[], RunOutcome.completes ⟨some "hi", none, none, "r"⟩⟩ "hello" "sess" none none 5
    freshWorld (by decide)

/-- C8 (confirmed): (1) a session with no messages renders the empty context
string; (2) the rendered transcript depends only on the last
`MAX_CONVERSATION_MESSAGES = 10` messages of the session; (3) on every
execution with a truthy session id, the context rendered from the session
(after the user message was appended) is non-empty, and the query handed
to the agent is exactly that context string, the separator
`"\n\nCurrent user message: "`, and the user's query. -/
theorem context_string_rendering_and_prepending :
    (∀ s : ConversationSession, s.messages = [] → s.get_context_string = "") ∧
    (∀ (sid2 : String) (msgs : List ConversationMessage) (ca la : Nat),
        ConversationSession.get_context_string ⟨sid2, msgs, ca, la⟩ =
          ConversationSession.get_context_string
            ⟨sid2, lastSlice msgs MAX_CONVERSATION_MESSAGES, ca, la⟩) ∧
    (∀ (beh : AgentBehavior) (query sid : String) (agentId workspaceId : Option Nat)
        (now : Nat) (w : World), sid ≠ "" →
        ((w.conv.get_or_create_session sid now).2.add_message "user" query none
            now).get_context_string ≠ "" ∧
        ∃ rest,
          (executeAgentWithContext beh query (some sid) agentId workspaceId now w).2.2 =
            TraceStep.userAppended sid query ::
              TraceStep.engineInvoked
                (((w.conv.get_or_create_session sid now).2.add_message "user" query
                    none now).get_context_string ++ "\n\nCurrent user message: " ++
                  query) :: rest) := by
  refine ⟨?_, ?_, ?_⟩
  · intro s h
    rw [ConversationSession.get_context_string, if_pos h]
  · intro sid2 msgs ca la
    by_cases h : msgs = []
    · subst h
      rfl
    · have h2 := lastSlice_ne_nil msgs MAX_CONVERSATION_MESSAGES h (by decide)
      rw [ConversationSession.get_context_string, ConversationSession.get_context_string]
      simp only [if_neg h, if_neg h2]
      rw [lastSlice_idem]
  · intro beh query sid agentId workspaceId now w hsid
    obtain ⟨events, outcome⟩ := beh
    have hps : pyTruthyStr (some sid) = true := by simp [pyTruthyStr, hsid]
    have hctx := get_context_string_ne_empty _
      (add_message_messages_ne_nil (w.conv.get_or_create_session sid now).2
        "user" query none now)
    refine ⟨hctx, ?_⟩
    cases outcome with
    | timesOut =>
        simp only [executeAgentWithContext, hps, if_true, Option.getD]
        rw [if_pos hctx]
        exact ⟨[], rfl⟩
    | cancelled =>
        simp only [executeAgentWithContext, hps, if_true, Option.getD]
        rw [if_pos hctx]
        exact ⟨[], rfl⟩
    | raises msg =>
        simp only [executeAgentWithContext, hps, if_true, Option.getD]
        rw [if_pos hctx]
        exact ⟨[], rfl⟩
    | completes r =>
        by_cases hrc : extractResponseContent r = ""
        · simp only [executeAgentWithContext, hps, if_true, Option.getD]
          rw [if_neg (by simp [hrc] :
            ¬ ((true && decide (extractResponseContent r ≠ "")) = true))]
          rw [if_pos hctx]
          exact ⟨[], rfl⟩
        · simp only [executeAgentWithContext, hps, if_true, Option.getD]
          rw [if_pos (by simp [hrc] :
            (true && decide (extractResponseContent r ≠ "")) = true)]
          rw [if_pos hctx]
          exact ⟨[TraceStep.assistantAppended sid (extractResponseContent r)], rfl⟩

/-- C8 witness: the three parts of `context_string_rendering_and_prepending`
at concrete inputs. -/
theorem context_string_rendering_and_prepending_witness :
    (ConversationSession.new "x" 0).get_context_string = "" ∧
    ConversationSession.get_context_string ⟨"x", [], 0, 0⟩ =
      ConversationSession.get_context_string
        ⟨"x", lastSlice [] MAX_CONVERSATION_MESSAGES, 0, 0⟩ ∧
    (((freshWorld.conv.get_or_create_session "sess" 5).2.add_message "user" "hello"
        none 5).get_context_string ≠ "" ∧
      ∃ rest,
        (executeAgentWithContext ⟨[], RunOutcome.timesOut⟩ "hello" (some "sess") none
            none 5 freshWorld).2.2 =
          TraceStep.userAppended "sess" "hello" ::
            TraceStep.engineInvoked
              (((freshWorld.conv.get_or_create_session "sess" 5).2.add_message "user"
                  "hello" none 5).get_context_string ++ "\n\nCurrent user message: " ++
                "hello") :: rest) :=
  ⟨context_string_rendering_and_prepending.1 (ConversationSession.new "x" 0) rfl,
   context_string_rendering_and_prepending.2.1 "x" [] 0 0,
   context_string_rendering_and_prepending.2.2 ⟨[], RunOutcome.timesOut⟩ "hello" "sess"
     none none 5 freshWorld (by decide)⟩

/-- Every state reachable by any schedule of the two-caller initialization
system is `stateOfPcs pa pb` for some valid pc pair: each step preserves
this shape (checked exhaustively over the finitely many pc pairs), so the
lock really does serialize the two bodies. -/
theorem runInit_reaches_valid_state (sched : List Bool) :
    ∃ pa pb : Fin 8, validPcPair pa.val pb.val = true ∧
      runInit sched = stateOfPcs pa.val pb.val := by
  have main : ∀ (l : List Bool) (s : InitSystem),
      (∃ pa pb : Fin 8, validPcPair pa.val pb.val = true ∧
        s = stateOfPcs pa.val pb.val) →
      ∃ pa pb : Fin 8, validPcPair pa.val pb.val = true ∧
        l.foldl initStep s = stateOfPcs pa.val pb.val := by
    intro l
    induction l with
    | nil =>
        intro s hs
        simpa using hs
    | cons i rest ih =>
        intro s hs
        obtain ⟨pa, pb, hv, rfl⟩ := hs
        have key : ∀ pa pb : Fin 8, validPcPair pa.val pb.val = true →
            ∀ j : Bool, ∃ pa2 pb2 : Fin 8, validPcPair pa2.val pb2.val = true ∧
              initStep (stateOfPcs pa.val pb.val) j = stateOfPcs pa2.val pb2.val := by
          decide
        obtain ⟨pa2, pb2, hv2, heq⟩ := key pa pb hv i
        rw [List.foldl_cons, heq]
        exact ih _ ⟨pa2, pb2, hv2, rfl⟩
  exact main sched initSystemStart ⟨0, 0, by decide, by decide⟩

/-- C1 (amended): over EVERY interleaving of the two concurrent
`initialize` callers, (1) at most one subprocess spawn set is live at any
time (the mutex serializes force-cleanup and spawn); (2) neither caller
ever takes the early-return branch (pc 8) — `_is_initializing` is reset
before the lock is released, so the flag is never observed set; and (3) in
every completed run (both callers at pc 7) TWO spawn sets were created in
total — the second caller re-initialized, tearing down the first set — and
exactly the second caller's set (id 2) is live at the end.  This replaces
the claim's "exactly one spawn set is created and the second call returns
immediately", which the code does not satisfy. -/
theorem initialize_serialized_amended (sched : List Bool) :
    (runInit sched).liveSets.length ≤ 1 ∧
    (runInit sched).pcA ≠ 8 ∧ (runInit sched).pcB ≠ 8 ∧
    ((runInit sched).pcA = 7 → (runInit sched).pcB = 7 →
      (runInit sched).spawnCount = 2 ∧ (runInit sched).liveSets = [2]) := by
  obtain ⟨pa, pb, hv, heq⟩ := runInit_reaches_valid_state sched
  rw [heq]
  have key2 : ∀ pa pb : Fin 8, validPcPair pa.val pb.val = true →
      (stateOfPcs pa.val pb.val).liveSets.length ≤ 1 ∧
      (stateOfPcs pa.val pb.val).pcA ≠ 8 ∧ (stateOfPcs pa.val pb.val).pcB ≠ 8 ∧
      ((stateOfPcs pa.val pb.val).pcA = 7 → (stateOfPcs pa.val pb.val).pcB = 7 →
        (stateOfPcs pa.val pb.val).spawnCount = 2 ∧
        (stateOfPcs pa.val pb.val).liveSets = [2]) := by
    decide
  exact key2 pa pb hv

/-- C1 witness: `initialize_serialized_amended` at the A-then-B schedule,
whose run completes with both callers at pc 7. -/
theorem initialize_serialized_amended_witness :
    (runInit schedSequentialAB).spawnCount = 2 ∧
    (runInit schedSequentialAB).liveSets = [2] :=
  (initialize_serialized_amended schedSequentialAB).2.2.2 (by decide) (by decide)
